import Mathlib

/-
Verification of the flight-alerts extraction/normalization pipeline.

Shallow embedding of the server-side normalization code:
  - src/server/routes/gemini-parse.ts   (digit/JSON/time/date/airport normalizers,
    completion fallback sweep)
  - src/server/routes/booking-proxy.ts  (second embedded document: the jalaali-js
    based calendar converter and the converting normalizeDateToISO)

JavaScript numbers are modelled as Int (all arithmetic here is integral and far
below 2^53, so no overflow modelling is needed).  JavaScript `Math.trunc`
division is Int.div (truncation toward zero).  Strings are modelled as Lean
String / List Char over code points; the inputs relevant to the claims are
BMP text, where this coincides with the UTF-16 view used by JavaScript.
-/

namespace Alerts

/-! ## Digit Normalizer (gemini-parse.ts, normalizeDigits)

The source replaces each character matched by the regex class [٠-٩۰-۹]
(U+0660–U+0669 and U+06F0–U+06F9) through an explicit 20-entry map; the domain of the map is exactly that character class, so the `|| d` fallback never fires and
the whole replace is a per-character map. -/

/-- Per-character digit mapping: the 20-entry map object of normalizeDigits,
with every other character passing through unchanged (the regex does not match
it). -/
def digitMap (c : Char) : Char :=
  if c = '٠' ∨ c = '۰' then '0'
  else if c = '١' ∨ c = '۱' then '1'
  else if c = '٢' ∨ c = '۲' then '2'
  else if c = '٣' ∨ c = '۳' then '3'
  else if c = '٤' ∨ c = '۴' then '4'
  else if c = '٥' ∨ c = '۵' then '5'
  else if c = '٦' ∨ c = '۶' then '6'
  else if c = '٧' ∨ c = '۷' then '7'
  else if c = '٨' ∨ c = '۸' then '8'
  else if c = '٩' ∨ c = '۹' then '9'
  else c

/-- normalizeDigits from gemini-parse.ts: replace Arabic-Indic and Extended
Arabic-Indic digits by ASCII digits, character by character. -/
def normalizeDigits (s : String) : String :=
  String.mk (s.data.map digitMap)

/-! ## jalaali-js calendar core (booking-proxy.ts, second document) -/

/-- div from booking-proxy.ts: Math.trunc(a / b), i.e. T-division. -/
def jdiv (a b : Int) : Int := Int.tdiv a b

/-- mod from booking-proxy.ts: a - Math.trunc(a / b) * b. -/
def jmod (a b : Int) : Int := a - Int.tdiv a b * b

/-- JALALI_BREAKS constant. -/
def JALALI_BREAKS : List Int :=
  [-61, 9, 38, 199, 426, 686, 756, 818, 1111, 1181, 1210,
   1635, 2060, 2097, 2192, 2262, 2324, 2394, 2456, 3178]

/-- g2d from booking-proxy.ts: Gregorian date to Julian day number. -/
def g2d (gy gm gd : Int) : Int :=
  let d := jdiv ((gy + jdiv (gm - 8) 6 + 100100) * 1461) 4
           + jdiv (153 * jmod (gm + 9) 12 + 2) 5
           + gd - 34840408
  d - jdiv (jdiv (gy + 100100 + jdiv (gm - 8) 6) 100 * 3) 4 + 752

/-- d2g from booking-proxy.ts: Julian day number to Gregorian (gy, gm, gd). -/
def d2g (jdn : Int) : Int × Int × Int :=
  let j0 := 4 * jdn + 139361631
  let j := j0 + jdiv (jdiv (4 * jdn + 183187720) 146097 * 3) 4 * 4 - 3908
  let i := jdiv (jmod j 1461) 4 * 5 + 308
  let gd := jdiv (jmod i 153) 5 + 1
  let gm := jmod (jdiv i 153) 12 + 1
  let gy := jdiv j 1461 - 100100 + jdiv (8 - gm) 6
  (gy, gm, gd)

/-- Result record of jalCal.  `leap` is absent when jalCal is called with
withoutLeap = true (the source then returns an object without a leap field). -/
structure JalCalRes where
  gy : Int
  march : Int
  leap : Option Int
  deriving DecidableEq, Repr

/-- Loop body of jalCal over the breakpoint list (the `for (let i = 1; ...)`
loop).  Carries (leapJ, jp, jump); `jump` is assigned before the `if (jy < jm)
break` test, so on break it holds the gap ending at the breaking element. -/
def jalLoop (jy : Int) (leapJ jp jump : Int) : List Int → Int × Int × Int
  | [] => (leapJ, jp, jump)
  | b :: rest =>
    let jump2 := b - jp
    if jy < b then (leapJ, jp, jump2)
    else jalLoop jy (leapJ + jdiv jump2 33 * 8 + jdiv (jmod jump2 33) 4) b jump2 rest

/-- jalCal from booking-proxy.ts, including the year-range march patch the
source inserted for jy in [1392, 1407].  The thrown RangeError for years
outside the breakpoint table is modelled as `none`.  The default
argument of the source withoutLeap = false is made explicit at every call site. -/
def jalCal (jy : Int) (withoutLeap : Bool) : Option JalCalRes :=
  let gy := jy + 621
  -- jy < JALALI_BREAKS[0] || jy > JALALI_BREAKS[19]
  if jy < -61 ∨ jy > 3178 then none
  else
    let r := jalLoop jy (-14) (-61) 0 JALALI_BREAKS.tail
    let leapJ0 := r.1
    let jp := r.2.1
    let jump := r.2.2
    let n := jy - jp
    let leapJ1 := leapJ0 + jdiv n 33 * 8 + jdiv (jmod n 33 + 3) 4
    let leapJ := if jmod jump 33 = 4 ∧ jump - n = 4 then leapJ1 + 1 else leapJ1
    let leapG := jdiv gy 4 - jdiv ((jdiv gy 100 + 1) * 3) 4 - 150
    let march0 := 20 + leapJ - leapG
    -- the ad hoc correction of the source: "نقطة الإصلاح"
    let march := if 1392 ≤ jy ∧ jy ≤ 1407 ∧ march0 = 20 then 21 else march0
    if withoutLeap then some ⟨gy, march, none⟩
    else
      let n2 := if jump - n < 6 then n - jump + jdiv (jump + 4) 33 * 33 else n
      let leap0 := jmod (jmod (n2 + 1) 33 - 1) 4
      let leap := if leap0 = -1 then 4 else leap0
      some ⟨gy, march, some leap⟩

/-- jalCal exactly as section 4.3 of the spec describes it (and as the cited
jalaali-js reference implements it): identical to `jalCal` except that the
year-range-specific march correction is absent.  Second definition for the
refinement comparison demanded by claim C2. -/
def jalCalSpec (jy : Int) (withoutLeap : Bool) : Option JalCalRes :=
  let gy := jy + 621
  if jy < -61 ∨ jy > 3178 then none
  else
    let r := jalLoop jy (-14) (-61) 0 JALALI_BREAKS.tail
    let leapJ0 := r.1
    let jp := r.2.1
    let jump := r.2.2
    let n := jy - jp
    let leapJ1 := leapJ0 + jdiv n 33 * 8 + jdiv (jmod n 33 + 3) 4
    let leapJ := if jmod jump 33 = 4 ∧ jump - n = 4 then leapJ1 + 1 else leapJ1
    let leapG := jdiv gy 4 - jdiv ((jdiv gy 100 + 1) * 3) 4 - 150
    let march := 20 + leapJ - leapG
    if withoutLeap then some ⟨gy, march, none⟩
    else
      let n2 := if jump - n < 6 then n - jump + jdiv (jump + 4) 33 * 33 else n
      let leap0 := jmod (jmod (n2 + 1) 33 - 1) 4
      let leap := if leap0 = -1 then 4 else leap0
      some ⟨gy, march, some leap⟩

/-- j2d from booking-proxy.ts (the jalCal RangeError propagates as none). -/
def j2d (jy jm jd : Int) : Option Int :=
  match jalCal jy true with
  | none => none
  | some r => some (g2d r.gy 3 r.march + (jm - 1) * 31 - jdiv jm 7 * (jm - 7) + jd - 1)

/-- toGregorian from booking-proxy.ts. -/
def toGregorian (jy jm jd : Int) : Option (Int × Int × Int) :=
  (j2d jy jm jd).map d2g

/-- j2d computed against jalCalSpec (no march patch), for the C2
comparison with the jalaali-js reference. -/
def j2dSpec (jy jm jd : Int) : Option Int :=
  match jalCalSpec jy true with
  | none => none
  | some r => some (g2d r.gy 3 r.march + (jm - 1) * 31 - jdiv jm 7 * (jm - 7) + jd - 1)

/-- toGregorian computed against jalCalSpec (no march patch). -/
def toGregorianSpec (jy jm jd : Int) : Option (Int × Int × Int) :=
  (j2dSpec jy jm jd).map d2g

/-- isLeapJalaaliYear from booking-proxy.ts: the jalCal leap field equals zero;
the try/catch around the RangeError is the `none => false` arm. -/
def isLeapJalaaliYear (jy : Int) : Bool :=
  match jalCal jy false with
  | some info => (info.leap.getD 1) = 0
  | none => false

/-- jalaaliMonthLength from booking-proxy.ts. -/
def jalaaliMonthLength (jy jm : Int) : Int :=
  if jm ≤ 6 then 31
  else if jm ≤ 11 then 30
  else if isLeapJalaaliYear jy then 30 else 29

/-- isValidJalaaliDate from booking-proxy.ts. -/
def isValidJalaaliDate (jy jm jd : Int) : Bool :=
  if ¬ (-61 ≤ jy ∧ jy ≤ 3177) then false
  else if ¬ (1 ≤ jm ∧ jm ≤ 12) then false
  else if ¬ (1 ≤ jd ∧ jd ≤ jalaaliMonthLength jy jm) then false
  else true

/-- jalaliToGregorian from booking-proxy.ts (tuple-returning wrapper). -/
def jalaliToGregorian (jy jm jd : Int) : Option (Int × Int × Int) :=
  toGregorian jy jm jd

/-! ## String helpers shared by the normalizers -/

/-- String.prototype.padStart with a single pad character. -/
def padStart (n : Nat) (p : Char) (s : String) : String :=
  if n ≤ s.length then s else String.mk (List.replicate (n - s.length) p) ++ s

/-- Global single-character replace, e.g. replace(/\./g, "/"). -/
def replaceAllChar (a b : Char) (s : String) : String :=
  String.mk (s.data.map fun c => if c = a then b else c)

/-- Numeric value of a decimal digit list (parseInt on an all-digit string). -/
def digitsToNat (cs : List Char) : Nat :=
  cs.foldl (fun acc c => 10 * acc + (c.toNat - 48)) 0

/-- String.prototype.trim on a character list: whitespace dropped from both
ends (the whitespace class modelled on its ASCII fragment). -/
def trimChars (cs : List Char) : List Char :=
  ((cs.dropWhile Char.isWhitespace).reverse.dropWhile Char.isWhitespace).reverse

/-- String.prototype.trim. -/
def jsTrim (s : String) : String := String.mk (trimChars s.data)

/-- String.prototype.split on a one-character separator. -/
def splitOnSep (sep : Char) : List Char → List (List Char)
  | [] => [[]]
  | c :: rest =>
    match splitOnSep sep rest with
    | h :: t => if c = sep then [] :: h :: t else (c :: h) :: t
    | [] => if c = sep then [[], []] else [[c]]

/-! ## Date normalization (both route files) -/

/-- Anchored date regex of normalizeDateToISO.
The pattern is a full match of 4 digits, a slash, 1-2 digits, a slash, 1-2
digits; since the digit classes exclude the slash this is exactly: the string
splits on the slash into three all-digit runs of lengths 4, 1-2, 1-2. -/
def matchDateFmt (s : String) : Option (Nat × Nat × Nat) :=
  match splitOnSep '/' s.data with
  | [a, b, c] =>
    if a.length = 4 ∧ a.all Char.isDigit
       ∧ 1 ≤ b.length ∧ b.length ≤ 2 ∧ b.all Char.isDigit
       ∧ 1 ≤ c.length ∧ c.length ≤ 2 ∧ c.all Char.isDigit
    then some (digitsToNat a, digitsToNat b, digitsToNat c)
    else none
  | _ => none

/-- ISO output formatting used by both branches of normalizeDateToISO. -/
def fmtISO (y m d : Int) : String :=
  padStart 4 '0' (toString y) ++ "-" ++ padStart 2 '0' (toString m) ++ "-"
    ++ padStart 2 '0' (toString d)

/-- Post-parse body of booking-proxy.ts normalizeDateToISO: the year-range
dispatch.  On the Jalali branch the source destructures the jalaliToGregorian
result directly; that call cannot throw for years in [1300, 1499] (they lie
inside the breakpoint table), so mapping over the Option is extensionally
the same. -/
def resolveYMD (y mo d : Int) : Option String :=
  if 1300 ≤ y ∧ y ≤ 1499 then
    if isValidJalaaliDate y mo d then
      match jalaliToGregorian y mo d with
      | some (gy, gm, gd) => some (fmtISO gy gm gd)
      | none => none
    else none
  else if 1900 < y ∧ y < 3000 then some (fmtISO y mo d)
  else none

/-- Input cleaning shared by both normalizeDateToISO variants: digit
normalization, '.' and '-' to '/', then trim. -/
def cleanDate (inp : String) : String :=
  jsTrim (replaceAllChar '-' '/' (replaceAllChar '.' '/' (normalizeDigits inp)))

/-- normalizeDateToISO from booking-proxy.ts (the converting variant).
The JavaScript guard `if (!input)` also treats the empty string as absent;
an empty string fails the format match below, giving the same `none`. -/
def normalizeDateToISO (input : Option String) : Option String :=
  match input with
  | none => none
  | some inp =>
    match matchDateFmt (cleanDate inp) with
    | none => none
    | some (y, mo, d) => resolveYMD (Int.ofNat y) (Int.ofNat mo) (Int.ofNat d)

/-- Post-parse body of gemini-parse.ts normalizeDateToISO: both year ranges
are passed through unchanged (conversion is deferred to the frontend). -/
def resolveYMDGP (y mo d : Int) : Option String :=
  if (1300 ≤ y ∧ y ≤ 1499) ∨ (1900 < y ∧ y < 3000) then some (fmtISO y mo d)
  else none

/-- normalizeDateToISO from gemini-parse.ts (the pass-through variant). -/
def normalizeDateToISOGP (input : Option String) : Option String :=
  match input with
  | none => none
  | some inp =>
    match matchDateFmt (cleanDate inp) with
    | none => none
    | some (y, mo, d) => resolveYMDGP (Int.ofNat y) (Int.ofNat mo) (Int.ofNat d)

/-! ## Fenced-Text JSON Extractor (gemini-parse.ts, extractJson)

JSON.parse is an external runtime; it is modelled as an arbitrary parse
oracle `String → Option α`, `none` standing for a thrown SyntaxError. -/

/-- Backtick character (U+0060). -/
def btick : Char := Char.ofNat 96

/-- Opening curly brace character (U+007B). -/
def lbrace : Char := Char.ofNat 123

/-- Closing curly brace character (U+007D). -/
def rbrace : Char := Char.ofNat 125

/-- Regex word character \w, i.e. [A-Za-z0-9_]. -/
def isWordChar (c : Char) : Bool := c.isAlpha || c.isDigit || c == '_'

/-- Whether the list starts with three backticks. -/
def ticks3 : List Char → Bool
  | a :: b :: c :: _ => a == btick && b == btick && c == btick
  | _ => false

/-- Non-greedy capture of the fence regex: the content up to the first
closing triple backtick, or none if there is no closing fence. -/
def captureToTicks : List Char → Option (List Char)
  | [] => none
  | c :: rest =>
    if ticks3 (c :: rest) then some []
    else (captureToTicks rest).map (fun l => c :: l)

/-- Attempt of the fence regex at one start position: three backticks, then
greedily `\w*` (no backtracking can help, since `\n` is not a word
character), then a literal newline, then the non-greedy capture. -/
def fenceAt (cs : List Char) : Option (List Char) :=
  if ticks3 cs then
    match (cs.drop 3).dropWhile isWordChar with
    | '\n' :: rest => captureToTicks rest
    | _ => none
  else none

/-- Leftmost match of the fence regex: try each start position from the
left, advancing one character on failure. -/
def findFence : List Char → Option (List Char)
  | [] => none
  | c :: rest =>
    match fenceAt (c :: rest) with
    | some cap => some cap
    | none => findFence rest

/-- String.prototype.indexOf for a single character (as an Option). -/
def firstIdx (c : Char) : List Char → Option Nat
  | [] => none
  | x :: xs => if x == c then some 0 else (firstIdx c xs).map (· + 1)

/-- String.prototype.lastIndexOf for a single character (as an Option). -/
def lastIdx (c : Char) (cs : List Char) : Option Nat :=
  match firstIdx c cs.reverse with
  | some i => some (cs.length - 1 - i)
  | none => none

/-- Body selection of extractJson: trim, take the fenced block body if one
exists, then slice from the first opening brace to the last closing brace
inclusively when both are present.  JavaScript slice with start at or past
the end yields the empty string, which the truncated Nat subtraction in
take reproduces. -/
def selectBody (text : String) : String :=
  let cleaned := trimChars text.data
  let body :=
    match findFence cleaned with
    | some cap => cap
    | none => cleaned
  match firstIdx lbrace body, lastIdx rbrace body with
  | some f, some l => String.mk ((body.drop f).take (l + 1 - f))
  | _, _ => String.mk body

/-- extractJson from gemini-parse.ts, parameterized by the JSON.parse oracle
and by the empty-object value returned on double failure. -/
def extractJson {α : Type} (parseJson : String → Option α) (emptyObj : α)
    (text : String) : α :=
  let jsonStr := selectBody text
  match parseJson jsonStr with
  | some v => v
  | none =>
    match parseJson (normalizeDigits jsonStr) with
    | some v => v
    | none => emptyObj

/-! ## Time Normalizer (gemini-parse.ts, normalizeTime24) -/

/-- The separator class [:٫.] of the time regex. -/
def isTimeSep (c : Char) : Bool := c == ':' || c == '٫' || c == '.'

/-- Numeric value of an ASCII digit. -/
def digitVal (c : Char) : Nat := c.toNat - 48

/-- Continuation of the time regex after the hour digits: a separator, then
greedily one or two minute digits (nothing follows in the pattern, so the
greedy minute never needs backtracking). -/
def afterHour (h : Nat) : List Char → Option (Nat × Nat)
  | [] => none
  | s :: rest =>
    if isTimeSep s then
      match rest with
      | [] => none
      | [m1] => if m1.isDigit then some (h, digitVal m1) else none
      | m1 :: m2 :: _ =>
        if m1.isDigit then
          some (h, if m2.isDigit then 10 * digitVal m1 + digitVal m2 else digitVal m1)
        else none
    else none

/-- Attempt of the time regex (\d{1,2})[:٫.](\d{1,2}) at one start position:
the greedy two-digit hour is tried first, backtracking to one digit. -/
def timeMatchAt : List Char → Option (Nat × Nat)
  | [] => none
  | c1 :: rest1 =>
    if c1.isDigit then
      match rest1 with
      | [] => none
      | c2 :: rest2 =>
        if c2.isDigit then
          match afterHour (10 * digitVal c1 + digitVal c2) rest2 with
          | some r => some r
          | none => afterHour (digitVal c1) rest1
        else afterHour (digitVal c1) rest1
    else none

/-- Leftmost match of the unanchored time regex. -/
def timeSearch : List Char → Option (Nat × Nat)
  | [] => none
  | c :: rest =>
    match timeMatchAt (c :: rest) with
    | some r => some r
    | none => timeSearch rest

/-- Whitespace removal replace(/\s/g, "").  The whitespace class is modelled
on its ASCII fragment, which covers every input the claims speak about. -/
def stripWS (s : String) : String :=
  String.mk (s.data.filter fun c => !c.isWhitespace)

/-- Cleaning step of normalizeTime24: digit normalization followed by
whitespace removal, viewed as a character list. -/
def cleanTime (s : String) : List Char := (stripWS (normalizeDigits s)).data

/-- normalizeTime24 from gemini-parse.ts.  As for the date normalizer, the
falsy empty string and an unmatched string coincide on `none`. -/
def normalizeTime24 (input : Option String) : Option String :=
  match input with
  | none => none
  | some s0 =>
    match timeSearch (cleanTime s0) with
    | none => none
    | some (h, m) =>
      let hh := min 23 (max 0 h)
      let mm := min 59 (max 0 m)
      some (padStart 2 '0' (toString hh) ++ ":" ++ padStart 2 '0' (toString mm))

/-! ## Airport-Code Resolver (gemini-parse.ts, toIata)

String.prototype.toUpperCase is modelled on its ASCII fragment; the bracket
and letter tests of the regexes only distinguish the ASCII range A-Z, on
which the fragment agrees with the runtime. -/

/-- Uppercase ASCII letter test, the regex class [A-Z]. -/
def isUpperAlpha (c : Char) : Bool := decide ('A' ≤ c ∧ c ≤ 'Z')

/-- ASCII fragment of toUpperCase. -/
def toUpperAscii (s : String) : String := String.mk (s.data.map Char.toUpper)

/-- Attempt of the paren regex \(([A-Z]{3})\) at one start position. -/
def parenAt : List Char → Option (List Char)
  | '(' :: a :: b :: c :: ')' :: _ =>
    if isUpperAlpha a && isUpperAlpha b && isUpperAlpha c then some [a, b, c]
    else none
  | _ => none

/-- Leftmost match of the paren regex. -/
def parenScan : List Char → Option (List Char)
  | [] => none
  | x :: rest =>
    match parenAt (x :: rest) with
    | some r => some r
    | none => parenScan rest

/-- Attempt of the standalone regex \b[A-Z]{3}\b at one position; `prev` is
the character before the position (none at the string start), giving the
left word boundary. -/
def standAt (prev : Option Char) : List Char → Option (List Char)
  | a :: b :: c :: rest =>
    if isUpperAlpha a && isUpperAlpha b && isUpperAlpha c
       && (match prev with | none => true | some p => !isWordChar p)
       && (match rest with | [] => true | d :: _ => !isWordChar d)
    then some [a, b, c] else none
  | _ => none

/-- Leftmost match of the standalone regex. -/
def standScan (prev : Option Char) : List Char → Option (List Char)
  | [] => none
  | x :: rest =>
    match standAt prev (x :: rest) with
    | some r => some r
    | none => standScan (some x) rest

/-- toIata from gemini-parse.ts; the local `up` binding of the source is written
out as toUpperAscii (jsTrim s). -/
def toIata (s : String) : String :=
  if (toUpperAscii (jsTrim s)).length = 3
     ∧ (toUpperAscii (jsTrim s)).data.all (fun c => isUpperAlpha c) then
    toUpperAscii (jsTrim s)
  else
    match parenScan (toUpperAscii (jsTrim s)).data with
    | some code => String.mk code
    | none =>
      match standScan none (toUpperAscii (jsTrim s)).data with
      | some code => String.mk code
      | none => toUpperAscii (jsTrim s)

/-! ## Completion Fallback Orchestrator (gemini-parse.ts, handleGeminiParse)

The fetch of one (model, version) candidate is abstracted into a response
oracle.  An ok response carries the completion text already extracted from
the payload; a failing response carries the HTTP status and body text. -/

/-- Outcome of one candidate fetch. -/
inductive FetchRes where
  | ok : String → FetchRes
  | err : Nat → String → FetchRes
  deriving DecidableEq, Repr

/-- State threaded through the sweep: okData/okText merged into one Option,
the running lastStatus and lastBody (initialized 500 and empty), and the
trace of candidates actually fetched (instrumentation; the source performs
these fetches in exactly this order). -/
structure SweepState where
  okData : Option String
  lastStatus : Nat
  lastBody : String
  attempts : List (String × String)
  deriving DecidableEq, Repr

/-- Prefix test on character lists. -/
def startsW : List Char → List Char → Bool
  | [], _ => true
  | _ :: _, [] => false
  | a :: as, b :: bs => a == b && startsW as bs

/-- Substring test on character lists. -/
def containsSub : List Char → List Char → Bool
  | [], pat => pat.isEmpty
  | h :: t, pat => startsW pat (h :: t) || containsSub t pat

/-- ASCII fragment of toLowerCase, for the /i regex flag. -/
def toLowerAscii (s : String) : String := String.mk (s.data.map Char.toLower)

/-- The retryable-body test /NOT_FOUND|not found|unsupported/i: a
case-insensitive substring search for any of the three alternatives. -/
def recoverableBody (body : String) : Bool :=
  containsSub (toLowerAscii body).data (toLowerAscii "NOT_FOUND").data
  || containsSub (toLowerAscii body).data "not found".data
  || containsSub (toLowerAscii body).data "unsupported".data

/-- The fixed API version list tried for each model. -/
def versions : List String := ["v1beta", "v1"]

/-- The fixed default model list of gemini-parse.ts (no preferred model). -/
def defaultModels : List String :=
  ["gemini-2.0-flash", "gemini-2.0-flash-latest",
   "gemini-1.5-flash-latest", "gemini-1.5-flash"]

/-- Inner loop of the sweep over API versions for one model.  A successful
fetch records okData and breaks; a failure records lastStatus/lastBody and
breaks out of this inner loop unless the status is 404 or the body matches
the retryable pattern. -/
def tryVersions (resp : String → String → FetchRes) (model : String) :
    SweepState → List String → SweepState
  | st, [] => st
  | st, v :: rest =>
    match resp model v with
    | FetchRes.ok text =>
      ⟨some text, st.lastStatus, st.lastBody, st.attempts ++ [(model, v)]⟩
    | FetchRes.err status body =>
      if status = 404 ∨ recoverableBody body then
        tryVersions resp model ⟨st.okData, status, body, st.attempts ++ [(model, v)]⟩ rest
      else ⟨st.okData, status, body, st.attempts ++ [(model, v)]⟩

/-- Outer loop of the sweep over models; stops as soon as okData is set. -/
def sweepModels (resp : String → String → FetchRes) :
    SweepState → List String → SweepState
  | st, [] => st
  | st, m :: rest =>
    match (tryVersions resp m st versions).okData with
    | some _ => tryVersions resp m st versions
    | none => sweepModels resp (tryVersions resp m st versions) rest

/-- The whole candidate sweep of handleGeminiParse, from the initial state
let okData = null, lastStatus = 500, lastBody = "". -/
def runSweep (models : List String) (resp : String → String → FetchRes) : SweepState :=
  sweepModels resp ⟨none, 500, "", []⟩ models

/-! ## Claim-side (spec-modelled) predicates -/

/-- Validity of an ISO YYYY-MM-DD string as the invariant section of the spec
uses the term: ten characters, digits in the date positions, dashes between,
month in [1, 12] and day in [1, 31] (the weakest syntactic reading). -/
def isoSyntacticallyValid (s : String) : Bool :=
  match splitOnSep '-' s.data with
  | [a, b, c] =>
    a.length = 4 && a.all Char.isDigit
    && b.length = 2 && b.all Char.isDigit
    && c.length = 2 && c.all Char.isDigit
    && 1 ≤ digitsToNat b && digitsToNat b ≤ 12
    && 1 ≤ digitsToNat c && digitsToNat c ≤ 31
  | _ => false

/-- A code is resolvable for toIata when one of the three code-producing
branches matches: the whole input is three uppercase letters, or a
parenthesised three-letter code exists, or a standalone three-letter token
exists. -/
def resolvable (s : String) : Prop :=
  ((toUpperAscii (jsTrim s)).length = 3
     ∧ (toUpperAscii (jsTrim s)).data.all (fun c => isUpperAlpha c))
  ∨ (parenScan (toUpperAscii (jsTrim s)).data).isSome = true
  ∨ (standScan none (toUpperAscii (jsTrim s)).data).isSome = true

/-- Invariant carried through a failing sweep: every attempted candidate
responded with an error, and lastStatus/lastBody are the error fields of the
most recent attempt (or still the initial 500 and empty body when nothing
was attempted yet). -/
def sweepInv (resp : String → String → FetchRes) (st : SweepState) : Prop :=
  (∀ c ∈ st.attempts, ∃ s b, resp c.1 c.2 = FetchRes.err s b)
  ∧ (st.attempts = []
     ∨ ∃ m v s b, st.attempts.getLast? = some (m, v)
         ∧ resp m v = FetchRes.err s b ∧ st.lastStatus = s ∧ st.lastBody = b)

/-- Response oracle that fails every candidate with a non-retryable 500. -/
def alwaysErr500 : String → String → FetchRes :=
  fun _ _ => FetchRes.err 500 "internal error"

/-- Response oracle that fails every candidate with a non-retryable 503. -/
def alwaysErr503 : String → String → FetchRes :=
  fun _ _ => FetchRes.err 503 "bad gateway"

/-! ## Theorems -/

/-- Every value digitMap produces is either the input unchanged or an ASCII
decimal digit. -/
theorem digitMap_cases (c : Char) :
    digitMap c = c
      ∨ digitMap c ∈ ['0', '1', '2', '3', '4', '5', '6', '7', '8', '9'] := by
  unfold digitMap
  split_ifs <;> first
    | exact Or.inr (by decide)
    | exact Or.inl rfl

/-- ASCII digits are fixed points of digitMap. -/
theorem digitMap_ascii_fix (c : Char)
    (h : c ∈ ['0', '1', '2', '3', '4', '5', '6', '7', '8', '9']) :
    digitMap c = c := by
  fin_cases h <;> decide

/-- digitMap is idempotent on every character. -/
theorem digitMap_idem (c : Char) : digitMap (digitMap c) = digitMap c := by
  rcases digitMap_cases c with h | h
  · rw [h]
    exact h
  · exact digitMap_ascii_fix _ h

/-- List form of digit-normalization idempotence. -/
theorem map_digitMap_idem (l : List Char) :
    (l.map digitMap).map digitMap = l.map digitMap := by
  induction l with
  | nil => rfl
  | cons a t ih => simp [List.map_cons, digitMap_idem, ih]

/-- C10: the Digit Normalizer is idempotent: for every string s,
normalizeDigits (normalizeDigits s) = normalizeDigits s. -/
theorem normalizeDigits_idempotent (s : String) :
    normalizeDigits (normalizeDigits s) = normalizeDigits s := by
  unfold normalizeDigits
  exact congrArg String.mk (map_digitMap_idem s.data)

/-- C1: the Calendrical Date Resolver maps the Jalali triple (1404, 7, 26)
to the Gregorian date (2025, 10, 18), and the date text "1404/07/26" to the
ISO string "2025-10-18". -/
theorem jalali_1404_07_26_resolves :
    toGregorian 1404 7 26 = some (2025, 10, 18)
      ∧ normalizeDateToISO (some "1404/07/26") = some "2025-10-18" := by
  constructor <;> decide

/-- C2: the year-range-specific Nowruz correction in jalCal is live code,
not dead: for jy = 1403 the patched resolver reports the day-of-March as 21
while the formula of spec section 4.3 (jalCalSpec, the jalaali-js reference
algorithm) yields 20, so toGregorian(1403, 1, 1) lands on 2024-03-21 instead
of the reference value 2024-03-20.  For 1404 (the year the patch comment
claims to fix) patched and unpatched results already agree. -/
theorem jalCal_march_patch_fires :
    jalCal 1403 true = some ⟨2024, 21, none⟩
      ∧ jalCalSpec 1403 true = some ⟨2024, 20, none⟩
      ∧ toGregorian 1403 1 1 = some (2024, 3, 21)
      ∧ toGregorianSpec 1403 1 1 = some (2024, 3, 20)
      ∧ jalCal 1404 true = jalCalSpec 1404 true := by
  refine ⟨by decide, by decide, by decide, by decide, by decide⟩

/-- C7: the Fenced-Text JSON Extractor is fail-soft: whenever the selected
body fails to parse both directly and after digit normalization, the result
is the empty object, for any parse oracle modelling JSON.parse. -/
theorem extractJson_fail_soft {α : Type} (p : String → Option α) (e : α)
    (t : String) (h1 : p (selectBody t) = none)
    (h2 : p (normalizeDigits (selectBody t)) = none) :
    extractJson p e t = e := by
  unfold extractJson
  simp [h1, h2]

/-- Witness for C7 at the concrete spec input "no json here at all", with
a parse oracle that rejects every string (as JSON.parse does on this body
and on its digit-normalized form). -/
theorem extractJson_fail_soft_witness :
    (fun _ : String => (none : Option Nat)) (selectBody "no json here at all") = none
      ∧ extractJson (fun _ : String => (none : Option Nat)) 0 "no json here at all" = 0 :=
  ⟨rfl, extractJson_fail_soft (fun _ => none) 0 "no json here at all" rfl rfl⟩

/-- Counterexample for C3 as stated: a triple with year in [1300, 1499] is
not always converted to a Gregorian ISO date.  The converting resolver
rejects 1404/12/30 (1404 is a common year), and the gemini-parse variant
passes 1404/07/26 through unconverted. -/
theorem date_dispatch_counterexample :
    normalizeDateToISO (some "1404/12/30") = none
      ∧ normalizeDateToISOGP (some "1404/07/26") = some "1404-07-26" := by
  constructor <;> decide

/-- Counterexample for C6 as stated: the Gregorian pass-through branch does
not validate month or day, so the date field of the record can hold a
syntactically invalid ISO string. -/
theorem record_date_invalid_counterexample :
    normalizeDateToISO (some "2025/13/45") = some "2025-13-45"
      ∧ isoSyntacticallyValid "2025-13-45" = false := by
  constructor <;> decide

/-- Counterexample for C9 as stated: on the fallback branch the Airport-Code
Resolver returns the cleaned input verbatim, which can contain characters
that are not uppercase ASCII letters. -/
theorem toIata_nonletter_counterexample :
    toIata "ab1" = "AB1"
      ∧ ((toIata "ab1").data.all (fun c => isUpperAlpha c)) = false := by
  constructor <;> decide

/-- jalCal succeeds on every year inside the breakpoint table. -/
theorem jalCal_some_of_range (y : Int) (h1 : -61 ≤ y) (h2 : y ≤ 3178) :
    ∃ r, jalCal y true = some r := by
  unfold jalCal
  rw [if_neg (by omega)]
  exact ⟨_, rfl⟩

/-- On the Jalali branch with a valid date, resolveYMD returns the ISO
formatting of the converted Gregorian triple. -/
theorem resolveYMD_jalali_valid (y mo d : Int) (h1 : 1300 ≤ y) (h2 : y ≤ 1499)
    (hv : isValidJalaaliDate y mo d = true) :
    ∃ gy gm gd : Int, jalaliToGregorian y mo d = some (gy, gm, gd)
      ∧ resolveYMD y mo d = some (fmtISO gy gm gd) := by
  obtain ⟨r, hr⟩ := jalCal_some_of_range y (by omega) (by omega)
  have hg : ∃ t, jalaliToGregorian y mo d = some (d2g t) :=
    ⟨_, by unfold jalaliToGregorian toGregorian j2d; rw [hr]; rfl⟩
  obtain ⟨t, hg⟩ := hg
  rcases hdg : d2g t with ⟨gy, gm, gd⟩
  refine ⟨gy, gm, gd, by rw [hg, hdg], ?_⟩
  unfold resolveYMD
  rw [if_pos ⟨h1, h2⟩, if_pos hv, hg, hdg]

/-- On the Jalali branch with an invalid date, resolveYMD is absent. -/
theorem resolveYMD_jalali_invalid (y mo d : Int) (h1 : 1300 ≤ y) (h2 : y ≤ 1499)
    (hv : isValidJalaaliDate y mo d = false) : resolveYMD y mo d = none := by
  unfold resolveYMD
  rw [if_pos ⟨h1, h2⟩, if_neg (by simp [hv])]

/-- On the Gregorian branch, resolveYMD passes the triple through. -/
theorem resolveYMD_gregorian (y mo d : Int) (h1 : 1900 < y) (h2 : y < 3000) :
    resolveYMD y mo d = some (fmtISO y mo d) := by
  unfold resolveYMD
  rw [if_neg (by omega), if_pos ⟨h1, h2⟩]

/-- Outside both year ranges, resolveYMD is absent. -/
theorem resolveYMD_other (y mo d : Int) (hA : ¬ (1300 ≤ y ∧ y ≤ 1499))
    (hB : ¬ (1900 < y ∧ y < 3000)) : resolveYMD y mo d = none := by
  unfold resolveYMD
  rw [if_neg hA, if_neg hB]

/-- The gemini-parse variant passes Jalali-range triples through. -/
theorem resolveYMDGP_jalali (y mo d : Int) (h1 : 1300 ≤ y) (h2 : y ≤ 1499) :
    resolveYMDGP y mo d = some (fmtISO y mo d) := by
  unfold resolveYMDGP
  rw [if_pos (Or.inl ⟨h1, h2⟩)]

/-- C3 (amended): year disambiguation of the date resolvers.  A year in
[1300, 1499] is treated as Jalali: the converting resolver converts it to
Gregorian ISO exactly when the triple is a valid Jalali date and otherwise
yields an absent result, while the gemini-parse variant passes it through
unconverted; a year in (1900, 3000) is passed through unchanged; any other
year yields an absent result, never an exception. -/
theorem date_year_disambiguation : ∀ y mo d : Int,
    (1300 ≤ y → y ≤ 1499 → isValidJalaaliDate y mo d = true →
       ∃ gy gm gd : Int, jalaliToGregorian y mo d = some (gy, gm, gd)
         ∧ resolveYMD y mo d = some (fmtISO gy gm gd))
    ∧ (1300 ≤ y → y ≤ 1499 → isValidJalaaliDate y mo d = false →
       resolveYMD y mo d = none)
    ∧ (1900 < y → y < 3000 → resolveYMD y mo d = some (fmtISO y mo d))
    ∧ (¬ (1300 ≤ y ∧ y ≤ 1499) → ¬ (1900 < y ∧ y < 3000) →
       resolveYMD y mo d = none)
    ∧ (1300 ≤ y → y ≤ 1499 → resolveYMDGP y mo d = some (fmtISO y mo d)) := by
  intro y mo d
  exact ⟨fun h1 h2 hv => resolveYMD_jalali_valid y mo d h1 h2 hv,
         fun h1 h2 hv => resolveYMD_jalali_invalid y mo d h1 h2 hv,
         fun h1 h2 => resolveYMD_gregorian y mo d h1 h2,
         fun hA hB => resolveYMD_other y mo d hA hB,
         fun h1 h2 => resolveYMDGP_jalali y mo d h1 h2⟩

/-- Witness for C3 (amended) at the spec scenarios: 1404/07/26 converts,
2025/01/30 passes through, invalid 1404/12/30 is rejected, and year 1000 is
out of both ranges. -/
theorem date_year_disambiguation_witness :
    (∃ gy gm gd : Int, jalaliToGregorian 1404 7 26 = some (gy, gm, gd)
       ∧ resolveYMD 1404 7 26 = some (fmtISO gy gm gd))
    ∧ resolveYMD 2025 1 30 = some (fmtISO 2025 1 30)
    ∧ resolveYMD 1404 12 30 = none
    ∧ resolveYMD 1000 1 1 = none :=
  ⟨(date_year_disambiguation 1404 7 26).1 (by decide) (by decide) (by decide),
   (date_year_disambiguation 2025 1 30).2.2.1 (by decide) (by decide),
   (date_year_disambiguation 1404 12 30).2.1 (by decide) (by decide) (by decide),
   (date_year_disambiguation 1000 1 1).2.2.2.1 (by decide) (by decide)⟩

/-- C4: the Jalali month-length table — months 1-6 have 31 days, months
7-11 have 30 days, month 12 has 30 days exactly in a leap year and 29
otherwise — and any Jalali-range triple whose day exceeds its month length
is rejected with an absent result before conversion, never clamped. -/
theorem month_length_and_rejection :
    (∀ jy m : Int, 1 ≤ m → m ≤ 6 → jalaaliMonthLength jy m = 31)
    ∧ (∀ jy m : Int, 7 ≤ m → m ≤ 11 → jalaaliMonthLength jy m = 30)
    ∧ (∀ jy : Int, jalaaliMonthLength jy 12
        = if isLeapJalaaliYear jy then 30 else 29)
    ∧ (∀ y m d : Int, 1300 ≤ y → y ≤ 1499 → jalaaliMonthLength y m < d →
       resolveYMD y m d = none) := by
  refine ⟨?_, ?_, ?_, ?_⟩
  · intro jy m _ h6
    unfold jalaaliMonthLength
    rw [if_pos h6]
  · intro jy m h7 h11
    unfold jalaaliMonthLength
    rw [if_neg (by omega), if_pos h11]
  · intro jy
    unfold jalaaliMonthLength
    rw [if_neg (by omega), if_neg (by omega)]
  · intro y m d h1 h2 hd
    apply resolveYMD_jalali_invalid y m d h1 h2
    unfold isValidJalaaliDate
    split_ifs with hA hB hC
    all_goals try rfl
    all_goals exfalso
    all_goals omega

/-- Witness for C4 at month lengths of 1404 and the rejected 1404/12/30. -/
theorem month_length_and_rejection_witness :
    jalaaliMonthLength 1404 3 = 31 ∧ jalaaliMonthLength 1404 8 = 30
      ∧ resolveYMD 1404 12 30 = none :=
  ⟨month_length_and_rejection.1 1404 3 (by decide) (by decide),
   month_length_and_rejection.2.1 1404 8 (by decide) (by decide),
   month_length_and_rejection.2.2.2 1404 12 30 (by decide) (by decide) (by decide)⟩

/-- C6 (amended): whenever the converting resolver produces a date from the
Jalali branch, the source triple was semantically valid in the Jalali
calendar — the validity gate runs before conversion.  (The Gregorian
pass-through branch checks only the year range; see the counterexample.) -/
theorem date_jalali_branch_validated (y mo d : Int) (h1 : 1300 ≤ y)
    (h2 : y ≤ 1499) (h3 : ∃ s, resolveYMD y mo d = some s) :
    isValidJalaaliDate y mo d = true := by
  obtain ⟨s, hs⟩ := h3
  cases hv : isValidJalaaliDate y mo d with
  | true => rfl
  | false =>
    rw [resolveYMD_jalali_invalid y mo d h1 h2 hv] at hs
    simp at hs

/-- Witness for C6 (amended) at the converted date 1404/07/26. -/
theorem date_jalali_branch_validated_witness :
    isValidJalaaliDate 1404 7 26 = true :=
  date_jalali_branch_validated 1404 7 26 (by decide) (by decide)
    ⟨"2025-10-18", by decide⟩

/-- Two-character zero-padding of every number below 60. -/
theorem pad2_length : ∀ n : Nat, n < 60 → (padStart 2 '0' (toString n)).length = 2 := by
  decide

/-- C8: the Time Normalizer.  Whenever the time regex matches the cleaned
input it returns a zero-padded HH:MM string with the hour clamped into
[0, 23] and the minute clamped into [0, 59]; unmatched or absent input
yields an absent result; and "19:75" normalizes to "19:59". -/
theorem time_normalization_clamps :
    (∀ s h m, timeSearch (cleanTime s) = some (h, m) →
       normalizeTime24 (some s)
         = some (padStart 2 '0' (toString (min 23 (max 0 h))) ++ ":"
             ++ padStart 2 '0' (toString (min 59 (max 0 m))))
       ∧ min 23 (max 0 h) ≤ 23 ∧ min 59 (max 0 m) ≤ 59
       ∧ (padStart 2 '0' (toString (min 23 (max 0 h)))).length = 2
       ∧ (padStart 2 '0' (toString (min 59 (max 0 m)))).length = 2)
    ∧ (∀ s, timeSearch (cleanTime s) = none → normalizeTime24 (some s) = none)
    ∧ normalizeTime24 none = none
    ∧ normalizeTime24 (some "19:75") = some "19:59" := by
  refine ⟨?_, ?_, rfl, by decide⟩
  · intro s h m hm
    refine ⟨?_, Nat.min_le_left _ _, Nat.min_le_left _ _,
      pad2_length _ (Nat.lt_of_le_of_lt (Nat.min_le_left _ _) (by decide)),
      pad2_length _ (Nat.lt_of_le_of_lt (Nat.min_le_left _ _) (by decide))⟩
    simp only [normalizeTime24]
    rw [hm]
  · intro s hn
    simp only [normalizeTime24]
    rw [hn]

/-- Witness for C8 at the clamping scenario of the spec "19:75". -/
theorem time_normalization_clamps_witness :
    normalizeTime24 (some "19:75")
      = some (padStart 2 '0' (toString (min 23 (max 0 19))) ++ ":"
          ++ padStart 2 '0' (toString (min 59 (max 0 75)))) :=
  (time_normalization_clamps.1 "19:75" 19 75 (by decide)).1

/-- A successful parenAt match is three uppercase letters. -/
theorem parenAt_shape (cs code : List Char) (h : parenAt cs = some code) :
    code.length = 3 ∧ code.all (fun c => isUpperAlpha c) = true := by
  unfold parenAt at h
  split at h
  · split_ifs at h with hup
    injection h with h2
    subst h2
    simp only [Bool.and_eq_true] at hup
    simp [List.all, hup.1.1, hup.1.2, hup.2]
  · exact absurd h (by simp)

/-- A successful parenScan match is three uppercase letters. -/
theorem parenScan_shape : ∀ cs code, parenScan cs = some code →
    code.length = 3 ∧ code.all (fun c => isUpperAlpha c) = true := by
  intro cs
  induction cs with
  | nil => intro code h; exact absurd h (by simp [parenScan])
  | cons x rest ih =>
    intro code h
    unfold parenScan at h
    cases hp : parenAt (x :: rest) with
    | some r =>
      rw [hp] at h
      injection h with h2
      subst h2
      exact parenAt_shape _ _ hp
    | none =>
      rw [hp] at h
      exact ih code h

/-- A successful standAt match is three uppercase letters. -/
theorem standAt_shape (prev : Option Char) (cs code : List Char)
    (h : standAt prev cs = some code) :
    code.length = 3 ∧ code.all (fun c => isUpperAlpha c) = true := by
  unfold standAt at h
  split at h
  · split_ifs at h with hup
    injection h with h2
    subst h2
    simp only [Bool.and_eq_true] at hup
    simp [List.all, hup.1.1.1.1, hup.1.1.1.2, hup.1.1.2]
  · exact absurd h (by simp)

/-- A successful standScan match is three uppercase letters. -/
theorem standScan_shape : ∀ cs prev code, standScan prev cs = some code →
    code.length = 3 ∧ code.all (fun c => isUpperAlpha c) = true := by
  intro cs
  induction cs with
  | nil => intro prev code h; exact absurd h (by simp [standScan])
  | cons x rest ih =>
    intro prev code h
    unfold standScan at h
    cases hp : standAt prev (x :: rest) with
    | some r =>
      rw [hp] at h
      injection h with h2
      subst h2
      exact standAt_shape _ _ _ hp
    | none =>
      rw [hp] at h
      exact ih (some x) code h

/-- C9 (amended): whenever one of the three code-resolution branches of the
Airport-Code Resolver matches, the result is exactly three uppercase ASCII
letters; otherwise the trimmed, upper-cased input is returned verbatim (and
may contain characters that are not letters — see the counterexample). -/
theorem airport_code_resolution (s : String) :
    (resolvable s → (toIata s).length = 3
       ∧ (toIata s).data.all (fun c => isUpperAlpha c) = true)
    ∧ (¬ resolvable s → toIata s = toUpperAscii (jsTrim s)) := by
  constructor
  · intro hres
    unfold toIata
    by_cases h3 : (toUpperAscii (jsTrim s)).length = 3
        ∧ (toUpperAscii (jsTrim s)).data.all (fun c => isUpperAlpha c) = true
    · rw [if_pos h3]
      exact h3
    · rw [if_neg h3]
      cases hp : parenScan (toUpperAscii (jsTrim s)).data with
      | some code =>
        have hsh := parenScan_shape _ _ hp
        exact ⟨hsh.1, hsh.2⟩
      | none =>
        cases hs2 : standScan none (toUpperAscii (jsTrim s)).data with
        | some code =>
          have hsh := standScan_shape _ _ _ hs2
          exact ⟨hsh.1, hsh.2⟩
        | none =>
          exfalso
          rcases hres with h | h | h
          · exact h3 h
          · rw [hp] at h
            simp at h
          · rw [hs2] at h
            simp at h
  · intro hnres
    unfold toIata
    have h3 : ¬ ((toUpperAscii (jsTrim s)).length = 3
        ∧ (toUpperAscii (jsTrim s)).data.all (fun c => isUpperAlpha c) = true) :=
      fun h => hnres (Or.inl h)
    rw [if_neg h3]
    cases hp : parenScan (toUpperAscii (jsTrim s)).data with
    | some code =>
      exfalso
      exact hnres (Or.inr (Or.inl (by rw [hp]; rfl)))
    | none =>
      cases hs2 : standScan none (toUpperAscii (jsTrim s)).data with
      | some code =>
        exfalso
        exact hnres (Or.inr (Or.inr (by rw [hs2]; rfl)))
      | none =>
        rfl

/-- Witness for C9 (amended): a parenthesised code resolves to 3 uppercase
letters. -/
theorem airport_code_resolution_witness :
    (toIata "Najaf (NJF)").length = 3
      ∧ (toIata "Najaf (NJF)").data.all (fun c => isUpperAlpha c) = true :=
  (airport_code_resolution "Najaf (NJF)").1 (Or.inr (Or.inl (by decide)))

/-- Counterexample for C5 as stated: with every candidate failing on a
non-404, non-retryable error, the orchestrator attempts only 4 of the 8
(model, version) candidates — the second API version of each model is
skipped — although the run contains no successful response. -/
theorem sweep_skips_candidates :
    (runSweep defaultModels alwaysErr500).okData = none
      ∧ defaultModels.length * versions.length = 8
      ∧ (runSweep defaultModels alwaysErr500).attempts.length = 4
      ∧ ("gemini-2.0-flash", "v1") ∉ (runSweep defaultModels alwaysErr500).attempts := by
  refine ⟨by decide, by decide, by decide, by decide⟩

/-- The inner version loop only appends to the attempt trace. -/
theorem tryVersions_attempts_mono (resp : String → String → FetchRes)
    (model : String) : ∀ vs st c, c ∈ st.attempts →
    c ∈ (tryVersions resp model st vs).attempts := by
  intro vs
  induction vs with
  | nil => intro st c h; exact h
  | cons v rest ih =>
    intro st c h
    cases hr : resp model v with
    | ok t =>
      simp only [tryVersions, hr]
      exact List.mem_append_left _ h
    | err status body =>
      simp only [tryVersions, hr]
      split_ifs with hcond
      · exact ih _ c (List.mem_append_left _ h)
      · exact List.mem_append_left _ h

/-- The first version of the list is always attempted by the inner loop. -/
theorem tryVersions_first_mem (resp : String → String → FetchRes)
    (model v : String) (rest : List String) (st : SweepState) :
    (model, v) ∈ (tryVersions resp model st (v :: rest)).attempts := by
  cases hr : resp model v with
  | ok t =>
    simp only [tryVersions, hr]
    exact List.mem_append_right _ (by simp)
  | err status body =>
    simp only [tryVersions, hr]
    split_ifs with hcond
    · exact tryVersions_attempts_mono resp model rest _ _
        (List.mem_append_right _ (by simp))
    · exact List.mem_append_right _ (by simp)

/-- Appending a failed attempt preserves the sweep invariant. -/
theorem sweepInv_extend (resp : String → String → FetchRes) (st : SweepState)
    (model v : String) (status : Nat) (body : String)
    (hinv : sweepInv resp st) (hr : resp model v = FetchRes.err status body) :
    sweepInv resp ⟨st.okData, status, body, st.attempts ++ [(model, v)]⟩ := by
  constructor
  · intro c hc
    rcases List.mem_append.1 hc with h | h
    · exact hinv.1 c h
    · have : c = (model, v) := by simpa using h
      subst this
      exact ⟨status, body, hr⟩
  · right
    exact ⟨model, v, status, body, by simp [List.getLast?_concat], hr, rfl, rfl⟩

/-- The inner version loop preserves the sweep invariant along a run that
has not yet succeeded. -/
theorem tryVersions_inv (resp : String → String → FetchRes) (model : String) :
    ∀ vs st, st.okData = none → sweepInv resp st →
    (tryVersions resp model st vs).okData = none →
    sweepInv resp (tryVersions resp model st vs) := by
  intro vs
  induction vs with
  | nil => intro st _ hinv _; exact hinv
  | cons v rest ih =>
    intro st hok hinv hres
    cases hr : resp model v with
    | ok t =>
      simp only [tryVersions, hr] at hres
      simp at hres
    | err status body =>
      simp only [tryVersions, hr] at hres ⊢
      have hinv2 := sweepInv_extend resp st model v status body hinv hr
      by_cases hcond : status = 404 ∨ recoverableBody body = true
      · rw [if_pos hcond] at hres ⊢
        exact ih _ hok hinv2 hres
      · rw [if_neg hcond] at hres ⊢
        exact hinv2

/-- The outer model loop of a failing run visits the first API version of
every model, preserves the invariant, and keeps earlier attempts. -/
theorem sweepModels_inv (resp : String → String → FetchRes) :
    ∀ models st, st.okData = none → sweepInv resp st →
    (sweepModels resp st models).okData = none →
    sweepInv resp (sweepModels resp st models)
    ∧ (∀ m ∈ models, (m, "v1beta") ∈ (sweepModels resp st models).attempts)
    ∧ (∀ c ∈ st.attempts, c ∈ (sweepModels resp st models).attempts) := by
  intro models
  induction models with
  | nil =>
    intro st _ hinv _
    exact ⟨hinv, by simp, fun c hc => hc⟩
  | cons m rest ih =>
    intro st hok hinv hres
    cases h2 : (tryVersions resp m st versions).okData with
    | some t =>
      simp only [sweepModels, h2] at hres
      simp at hres
    | none =>
      simp only [sweepModels, h2] at hres ⊢
      have hinv2 := tryVersions_inv resp m versions st hok hinv h2
      obtain ⟨ha, hb, hc⟩ := ih (tryVersions resp m st versions) h2 hinv2 hres
      refine ⟨ha, ?_, fun c hcm =>
        hc c (tryVersions_attempts_mono resp m versions st c hcm)⟩
      intro m2 hm2
      rcases List.mem_cons.1 hm2 with rfl | hm2
      · exact hc _ (tryVersions_first_mem resp m2 "v1beta" ["v1"] st)
      · exact hb m2 hm2

/-- C5 (amended): on a run with no successful response the orchestrator
never abandons the sweep — it attempts at least the first API version of
every model in the candidate list — every attempted candidate failed, and
the final failure carries the status and body observed on the last
attempted candidate.  (After a non-404, non-retryable failure the remaining
API versions of that model are skipped; see the counterexample.) -/
theorem sweep_exhausts_models (models : List String)
    (resp : String → String → FetchRes)
    (hfail : (runSweep models resp).okData = none) :
    (∀ m ∈ models, (m, "v1beta") ∈ (runSweep models resp).attempts)
    ∧ (∀ c ∈ (runSweep models resp).attempts,
        ∃ s b, resp c.1 c.2 = FetchRes.err s b)
    ∧ (models = []
       ∨ ∃ m v s b, (runSweep models resp).attempts.getLast? = some (m, v)
           ∧ resp m v = FetchRes.err s b
           ∧ (runSweep models resp).lastStatus = s
           ∧ (runSweep models resp).lastBody = b) := by
  have hinit : sweepInv resp ⟨none, 500, "", []⟩ := ⟨by simp, Or.inl rfl⟩
  obtain ⟨hinv, hmem, _⟩ := sweepModels_inv resp models ⟨none, 500, "", []⟩ rfl hinit hfail
  refine ⟨hmem, hinv.1, ?_⟩
  cases models with
  | nil => exact Or.inl rfl
  | cons m rest =>
    right
    rcases hinv.2 with hempty | hlast
    · exfalso
      have := hmem m (by simp)
      rw [hempty] at this
      simp at this
    · exact hlast

/-- Witness for C5 (amended): with every candidate failing on 503, the last
last
model still has its first version attempted and the failure carries the
observed 503 status and body. -/
theorem sweep_exhausts_models_witness :
    ("gemini-1.5-flash", "v1beta") ∈ (runSweep defaultModels alwaysErr503).attempts
      ∧ (∃ s b, alwaysErr503 "gemini-2.0-flash" "v1beta" = FetchRes.err s b) :=
  ⟨(sweep_exhausts_models defaultModels alwaysErr503 (by decide)).1
      "gemini-1.5-flash" (by decide),
   (sweep_exhausts_models defaultModels alwaysErr503 (by decide)).2.1
      ("gemini-2.0-flash", "v1beta") (by decide)⟩

end Alerts
